import Mathlib

/-!
Verification of the Jamulus session-recording subsystem
(`src/recorder/jamrecorder.cpp`): a shallow embedding of `CJamClient`,
`CJamSession` and the `CJamRecorder` export paths, with theorems settling
the behavioural claims about frame processing, disconnect handling,
file naming, track assembly and the project exporters.

Modelling conventions:
* Qt strings (`QString`) are Lean `String`s; the Qt helpers used by the
  source (`split`, `count`, `toInt`, `toLongLong`, `number`, `endsWith`
  globbing) are modelled by small list-of-char based functions below.
* Machine integers (`int`, `qint64`, `uint16_t`) are modelled by `Nat`
  (all values reaching these variables in the recorder are non-negative);
  the `static_cast<uint16_t>` in the `CJamClient` constructor is modelled
  by an explicit `% 65536`.  The one signed value, the session's
  `chIdDisconnected` field with its `-1` sentinel, is modelled as `Int`.
* The session directory is modelled as an ordered list of
  (file name, byte size) pairs; the raw PCM sample values are not
  modelled, only the byte counts the writer appends, since no claim
  depends on sample data.
* A C++ null-pointer dereference is modelled by returning `none`.
-/

/-! ### QString helpers (models of the Qt string operations the source uses) -/

/-- Model of `QString::split(sep)` (KeepEmptyParts, Qt's default): split a
character list at every occurrence of `sep`.  Splitting the empty string
yields `[[]]`, as Qt does. -/
def splitOnChar (sep : Char) (s : List Char) : List (List Char) :=
  s.foldr
    (fun c acc =>
      match acc with
      | [] => [[c]]
      | hd :: tl => if c = sep then [] :: hd :: tl else (c :: hd) :: tl)
    [[]]

/-- `QString::split` on Lean strings. -/
def qSplit (sep : Char) (s : String) : List String :=
  (splitOnChar sep s.data).map List.asString

/-- Model of `QString::count(c) > 0`, i.e. containment of a character. -/
def qContainsChar (c : Char) (s : String) : Bool :=
  s.data.contains c

/-- Model of `QString::toInt` / `QString::toLongLong` on the non-negative
strings that occur in file names: the parsed decimal value, and `0` when
the string is empty or has a non-digit character (Qt returns 0 on any
parse failure). -/
def qToNat (s : String) : Nat :=
  if !s.data.isEmpty && s.data.all (fun c => c.isDigit) then
    s.data.foldl (fun n c => n * 10 + (c.toNat - '0'.toNat)) 0
  else 0

/-- Model of the `"*.pcm"` name filter of `QDir::entryList`: the entry's
name ends in `".pcm"`. -/
def matchesPcmGlob (name : String) : Bool :=
  ".pcm".data.isSuffixOf name.data

/-! ### Decimal rendering (`QString::number`, modelled by `Nat.repr`)

The file-name collision loop in the `CJamClient` constructor needs that
distinct suffix numbers render to distinct strings, so we prove
`Nat.repr` injective by relating it to a structurally transparent
digit-list function. -/

/-- The decimal digit characters of `n`, most significant first; the
reference function `Nat.repr` is proved equal to it below. -/
def decChars (n : Nat) : List Char :=
  if _h : n < 10 then [Nat.digitChar n]
  else decChars (n / 10) ++ [Nat.digitChar (n % 10)]
termination_by n
decreasing_by
  exact Nat.div_lt_self (by omega) (by omega)

/-! ### File naming (`CJamClient::CJamClient`, jamrecorder.cpp:51-57) -/

/-- The affix the collision loop uses on its `k`-th attempt: empty on the
first attempt, `"_k"` afterwards (jamrecorder.cpp:55 increments the
number inside the affix each time round). -/
def affixOf (k : Nat) : String :=
  if k = 0 then ("") else ("_") ++ Nat.repr k

/-- The candidate file name tried on attempt `k`:
`fileName + affix + ".wav"` (jamrecorder.cpp:53,57). -/
def candFileName (base : String) (k : Nat) : String :=
  base ++ affixOf k ++ ".wav"

/-- The collision loop of jamrecorder.cpp:53-56, with the attempt counter
made explicit: starting from attempt `k`, return the first attempt whose
candidate name is not among the existing files.  `fuel` bounds the
search so that the function is structurally recursive; `uniqueFileName`
supplies enough fuel for the loop to always find a free name. -/
def findAffix (files : List String) (base : String) (fuel k : Nat) : Nat :=
  match fuel with
  | 0 => k
  | fuel' + 1 =>
    if candFileName base k ∈ files then findAffix files base fuel' (k + 1) else k

/-- The file name chosen by the `CJamClient` constructor: the first
candidate `base[_k].wav` that does not collide with an existing file of
the session directory. -/
def uniqueFileName (files : List String) (base : String) : String :=
  candFileName base (findAffix files base (files.length + 1) 0)

/-! ### Data model (jamrecorder.h is not under src/; the record layouts
below follow the accessors the .cpp file uses, with "Modelled from the
spec:" notes where the header alone defines behaviour) -/

/-- `CHostAddress`: IP address and port, the identity key of a
connection.  The address value itself is opaque to the recorder (only
compared for equality), so `InetAddr` is modelled as a `Nat` key. -/
structure CHostAddress where
  inetAddr : Nat
  iPort : Nat
deriving DecidableEq

/-- `CJamClient`: one active recording.  `numChannels` holds
`static_cast<uint16_t>(_numChannels)` (jamrecorder.cpp:46), modelled by
`% 65536`.  File I/O state is reduced to the chosen file name; the
session tracks the file's byte size. -/
structure CJamClient where
  startFrame : Nat
  numChannels : Nat
  name : String
  address : CHostAddress
  frameCount : Nat
  fileName : String
deriving DecidableEq

/-- `CJamClientConnection`: the immutable record captured by
`CJamSession::DisconnectClient` (jamrecorder.cpp:145-149).
Modelled from the spec: the header defines it as an immutable snapshot
of channel count ("Format"), start frame, frame count ("Length"),
name-at-finalize-time and file path. -/
structure CJamClientConnection where
  numAudioChannels : Nat
  startFrame : Nat
  frameCount : Nat
  name : String
  fileName : String
deriving DecidableEq

/-- `STrackItem`: one track segment as used by `Tracks()` /
`TracksFromSessionDir()` and the exporters (fields per the uses at
jamrecorder.cpp:238-243, 285-290, 460-462). -/
structure STrackItem where
  numAudioChannels : Nat
  startFrame : Nat
  frameCount : Nat
  fileName : String
deriving DecidableEq

/-- Modelled from the spec: `MAX_NUM_CHANNELS` is defined outside the
given source ("fixed size = max channel count"); no claim depends on its
value. -/
def MAX_NUM_CHANNELS : Nat := 150

/-- `CJamSession` state: the session directory's files (name, byte
size, in creation order), the global frame counter, the one-shot
just-disconnected marker (`-1` when clear), the slot table and the
append-only finalized-connection list (jamrecorder.cpp:110-115). -/
structure CJamSession where
  sessionFiles : List (String × Nat)
  currentFrame : Nat
  chIdDisconnected : Int
  vecptrJamClients : List (Option CJamClient)
  jamClientConnections : List CJamClientConnection
deriving DecidableEq

/-- A freshly constructed session: empty directory, frame counter 0,
marker clear, all slots empty, no finalized connections
(jamrecorder.cpp:110-135). -/
def initSession : CJamSession :=
  ⟨[], 0, -1, List.replicate MAX_NUM_CHANNELS none, []⟩

/-- Modelled from the spec: `ClientName()` is defined in the header; per
the spec the per-client file is named `<name>-<startFrame>-<channelCount>`,
so `ClientName()` yields the client's display name. -/
def clientNameOf (name : String) : String := name

/-- The `CJamClient` constructor (jamrecorder.cpp:44-67): build the base
name `ClientName()-frame-numChannels`, disambiguate against the existing
files with the `_1`, `_2`, … affix loop, and record the chosen name.
Returns the client and its file name.  (The `QFile` open failure path is
a thrown construction error; I/O failures are not modelled.) -/
def mkJamClient (frame : Nat) (numChannels : Nat) (name : String)
    (address : CHostAddress) (files : List String) : CJamClient × String :=
  let base := clientNameOf name ++ "-" ++ Nat.repr frame ++ "-" ++ Nat.repr numChannels
  let fn := uniqueFileName files base
  (⟨frame, numChannels % 65536, name, address, 0, fn⟩, fn)

/-- `CJamClient::Frame` (jamrecorder.cpp:74-84): update the display
name, append `numChannels * iServerFrameSizeSamples` 16-bit samples to
the file (byte growth handled by the caller), and bump the frame
count. -/
def CJamClient.feed (c : CJamClient) (name : String) : CJamClient :=
  { c with name := name, frameCount := c.frameCount + 1 }

/-- Byte growth of a client's file for one fed frame: 16-bit
little-endian samples, `numChannels * frameSizeSamples` of them
(jamrecorder.cpp:78-81; the 2-byte sample width is the spec's "16-bit
PCM" container contract, the writer class being outside src/). -/
def frameBytes (numChannels frameSizeSamples : Nat) : Nat :=
  2 * numChannels * frameSizeSamples

/-- Add `bytes` to the recorded size of file `fn`. -/
def updateFileSize (files : List (String × Nat)) (fn : String) (bytes : Nat) :
    List (String × Nat) :=
  files.map (fun e => if e.1 = fn then (e.1, e.2 + bytes) else e)

/-- The snapshot `DisconnectClient` appends (jamrecorder.cpp:145-149). -/
def finalizeClient (c : CJamClient) : CJamClientConnection :=
  ⟨c.numChannels, c.startFrame, c.frameCount, c.name, c.fileName⟩

/-- The body of `CJamSession::DisconnectClient` once the slot's client
is in hand (jamrecorder.cpp:143-153): finalize, append the connection
record, clear the slot, set the one-shot marker. -/
def CJamSession.disconnectWith (s : CJamSession) (iChID : Nat) (c : CJamClient) :
    CJamSession :=
  { s with
    jamClientConnections := s.jamClientConnections ++ [finalizeClient c],
    vecptrJamClients := s.vecptrJamClients.set iChID none,
    chIdDisconnected := (iChID : Int) }

/-- `CJamSession::DisconnectClient` (jamrecorder.cpp:141-154).  The
source dereferences `vecptrJamClients[iChID]` without a null check;
calling it on an empty slot is a null-pointer dereference, modelled as
`none`. -/
def CJamSession.disconnectClient (s : CJamSession) (iChID : Nat) :
    Option CJamSession :=
  match s.vecptrJamClients.getD iChID none with
  | none => none
  | some c => some (s.disconnectWith iChID c)

/-- The slot-adjustment phase of `CJamSession::Frame`
(jamrecorder.cpp:178-196): open a new client for an empty slot; on an
identity change (channel count, host or port) finalize the old client
and, for a non-zero channel count, open a fresh one. -/
def CJamSession.openClientAt (s : CJamSession) (iChID : Nat) (name : String)
    (address : CHostAddress) (numAudioChannels : Nat) : CJamSession :=
  let p := mkJamClient s.currentFrame numAudioChannels name address
    (s.sessionFiles.map (fun e => e.1))
  { s with
    vecptrJamClients := s.vecptrJamClients.set iChID (some p.1),
    sessionFiles := s.sessionFiles ++ [(p.2, 0)] }

def CJamSession.frameStage (s : CJamSession) (iChID : Nat) (name : String)
    (address : CHostAddress) (numAudioChannels : Nat) : CJamSession :=
  match s.vecptrJamClients.getD iChID none with
  | none => s.openClientAt iChID name address numAudioChannels
  | some c =>
    if numAudioChannels ≠ c.numChannels ∨ address.inetAddr ≠ c.address.inetAddr
        ∨ address.iPort ≠ c.address.iPort then
      let sd := s.disconnectWith iChID c
      if numAudioChannels = 0 then
        { sd with vecptrJamClients := sd.vecptrJamClients.set iChID none }
      else
        sd.openClientAt iChID name address numAudioChannels
    else s

/-- `CJamSession::Frame` (jamrecorder.cpp:169-211): stale-frame
suppression via the one-shot marker, slot adjustment, feeding the frame
to the slot's client if one is (still) there, and the counter rule: the
counter advances by one exactly when the fed client's
`StartFrame() + FrameCount()` exceeds it (jamrecorder.cpp:207-210). -/
def CJamSession.frame (s : CJamSession) (iChID : Nat) (name : String)
    (address : CHostAddress) (numAudioChannels : Nat)
    (iServerFrameSizeSamples : Nat) : CJamSession :=
  if (iChID : Int) = s.chIdDisconnected then
    { s with chIdDisconnected := -1 }
  else
    let s1 := s.frameStage iChID name address numAudioChannels
    match s1.vecptrJamClients.getD iChID none with
    | none => s1
    | some c =>
      let c2 := c.feed name
      let s2 := { s1 with
        vecptrJamClients := s1.vecptrJamClients.set iChID (some c2),
        sessionFiles := updateFileSize s1.sessionFiles c.fileName
          (frameBytes c.numChannels iServerFrameSizeSamples) }
      if c2.startFrame + c2.frameCount > s2.currentFrame then
        { s2 with currentFrame := s2.currentFrame + 1 }
      else s2

/-- Whether a `Frame` call reaches `vecptrJamClients[iChID]->Frame(...)`
(the frame is fed rather than dropped), assuming a valid channel id:
false when the one-shot marker matches, and false when an identity
change arrives with channel count 0 (jamrecorder.cpp:171-202). -/
def CJamSession.frameFed (s : CJamSession) (iChID : Nat)
    (address : CHostAddress) (numAudioChannels : Nat) : Bool :=
  if (iChID : Int) = s.chIdDisconnected then false
  else
    match s.vecptrJamClients.getD iChID none with
    | none => true
    | some c =>
      if numAudioChannels ≠ c.numChannels ∨ address.inetAddr ≠ c.address.inetAddr
          ∨ address.iPort ≠ c.address.iPort then
        decide (numAudioChannels ≠ 0)
      else true

/-- `CJamSession::End` (jamrecorder.cpp:216-226): finalize every
occupied slot, skipping empty ones. -/
def CJamSession.endSession (s : CJamSession) : CJamSession :=
  (List.range s.vecptrJamClients.length).foldl
    (fun acc i =>
      match acc.vecptrJamClients.getD i none with
      | none => acc
      | some c => acc.disconnectWith i c)
    s

/-- Track maps, `QMap<QString, QList<STrackItem>>`.  Modelled as an
association list in key-insertion order; `QMap` iterates keys in sorted
order instead, but no settled claim depends on key iteration order. -/
abbrev TrackMap := List (String × List STrackItem)

def TrackMap.containsKey (m : TrackMap) (k : String) : Bool :=
  m.any (fun e => e.1 = k)

def TrackMap.appendAt (m : TrackMap) (k : String) (v : STrackItem) : TrackMap :=
  m.map (fun e => if e.1 = k then (e.1, e.2 ++ [v]) else e)

/-- `CJamSession::Tracks` (jamrecorder.cpp:232-254): group the finalized
connections by name-at-finalize-time, in list order, creating an empty
entry on first sight of a name and appending each item. -/
def CJamSession.tracks (s : CJamSession) : TrackMap :=
  s.jamClientConnections.foldl
    (fun m conn =>
      let item : STrackItem :=
        ⟨conn.numAudioChannels, conn.startFrame, conn.frameCount, conn.fileName⟩
      let m1 := if m.containsKey conn.name then m else m ++ [(conn.name, [])]
      m1.appendAt conn.name item)
    []

/-- `CJamSession::TracksFromSessionDir` (jamrecorder.cpp:261-296):
scan the directory entries matching `"*.pcm"`, parse each name as
`name-hostPort-startFrame-numChannels[_n].ext`, group by
`name-hostPort`, and compute the length as
`fileByteSize / numChannels / iServerFrameSizeSamples`
(jamrecorder.cpp:283 — note: no division by the sample width).
Out-of-range accesses of the split (`split[1]` on a short name) and the
division are total in the model via defaults; no settled claim exercises
them.  Directory enumeration order is list order. -/
def CJamSession.tracksFromSessionDir (files : List (String × Nat))
    (iServerFrameSizeSamples : Nat) : TrackMap :=
  (files.filter (fun e => matchesPcmGlob e.1)).foldl
    (fun m e =>
      let split := qSplit '-' ((qSplit '.' e.1).headD (""))
      let name := split.getD 0 ""
      let hostPort := split.getD 1 ""
      let frame := split.getD 2 ""
      let tail := split.getD 3 ""
      let numChannels :=
        if qContainsChar '_' tail then (qSplit '_' tail).headD ("") else tail
      let trackName := name ++ "-" ++ hostPort
      let m1 := if m.containsKey trackName then m else m ++ [(trackName, [])]
      let length := e.2 / qToNat numChannels / iServerFrameSizeSamples
      let item : STrackItem := ⟨qToNat numChannels, qToNat frame, length, e.1⟩
      m1.appendAt trackName item)
    []

/-! ### Event sequences over a session (for the counter invariant) -/

inductive SessionEvent where
  | frameEv (iChID : Nat) (name : String) (address : CHostAddress)
      (numAudioChannels : Nat)
  | disconnectEv (iChID : Nat)

def SessionEvent.chId : SessionEvent → Nat
  | .frameEv iChID _ _ _ => iChID
  | .disconnectEv iChID => iChID

/-- One server event delivered to the session; a `none` result is the
null-pointer fault of `DisconnectClient` on an empty slot. -/
def stepEvent (iServerFrameSizeSamples : Nat) (s : CJamSession) :
    SessionEvent → Option CJamSession
  | .frameEv iChID name address numAudioChannels =>
    some (s.frame iChID name address numAudioChannels iServerFrameSizeSamples)
  | .disconnectEv iChID => s.disconnectClient iChID

def runEvents (iServerFrameSizeSamples : Nat) (s : CJamSession) :
    List SessionEvent → Option CJamSession
  | [] => some s
  | e :: es =>
    match stepEvent iServerFrameSizeSamples s e with
    | none => none
    | some s' => runEvents iServerFrameSizeSamples s' es

/-! ### Recorder export paths (`CJamRecorder`) -/

/-- The files the live exporters touch: name ↦ text contents. -/
structure RecFileSystem where
  files : List (String × String)
deriving DecidableEq

def RecFileSystem.hasFile (fs : RecFileSystem) (name : String) : Bool :=
  fs.files.any (fun e => e.1 = name)

def RecFileSystem.read (fs : RecFileSystem) (name : String) : Option String :=
  (fs.files.find? (fun e => e.1 = name)).map (fun e => e.2)

/-- `CJamRecorder::ReaperProjectFromCurrentSession`
(jamrecorder.cpp:416-439): target `<sessionName>.rpp`; if it exists,
warn and write nothing, else write the serialized project.  The
`CReaperProject` serializer is outside src/ (the spec calls its grammar
an opaque contract), so the rendered text is a parameter.  Returns the
file system and whether the already-exists warning fired. -/
def reaperProjectFromCurrentSession (fs : RecFileSystem) (sessionName : String)
    (rppContent : String) : RecFileSystem × Bool :=
  let target := sessionName ++ ".rpp"
  if fs.hasFile target then (fs, true)
  else (⟨fs.files ++ [(target, rppContent)]⟩, false)

/-- `CJamRecorder::AudacityLofFromCurrentSession`
(jamrecorder.cpp:441-474): same shape for `<sessionName>.lof`. -/
def audacityLofFromCurrentSession (fs : RecFileSystem) (sessionName : String)
    (lofContent : String) : RecFileSystem × Bool :=
  let target := sessionName ++ ".lof"
  if fs.hasFile target then (fs, true)
  else (⟨fs.files ++ [(target, lofContent)]⟩, false)

/-- The export phase of `CJamRecorder::OnEnd` (jamrecorder.cpp:385-386):
both exporters run unconditionally, Reaper first.  Returns the file
system and the two warning flags. -/
def onEndExports (fs : RecFileSystem) (sessionName rppContent lofContent : String) :
    RecFileSystem × Bool × Bool :=
  let r := reaperProjectFromCurrentSession fs sessionName rppContent
  let a := audacityLofFromCurrentSession r.1 sessionName lofContent
  (a.1, r.2, a.2)

/-- The file system the stateless offline path sees: text files plus the
set of existing directories. -/
structure OfflineFileSystem where
  files : List (String × String)
  dirs : List String
deriving DecidableEq

def OfflineFileSystem.hasFile (fs : OfflineFileSystem) (name : String) : Bool :=
  fs.files.any (fun e => e.1 = name)

/-- `QFileInfo::baseName` of a path: the last path component up to its
first dot. -/
def qBaseName (path : String) : String :=
  (qSplit '.' ((qSplit '/' path).getLastD (""))).headD ("")

/-- `CJamRecorder::SessionDirToReaper` (jamrecorder.cpp:480-505): hard
error (an exception, so nothing is written) when the directory is
missing or not a directory, or when `<dir>/<baseName>.rpp` already
exists; otherwise write the serialized project there.  The serialized
text (`CReaperProject` over `TracksFromSessionDir`, serializer outside
src/) is a parameter. -/
def sessionDirToReaper (fs : OfflineFileSystem) (strSessionDirName : String)
    (rppContent : String) : Except String OfflineFileSystem :=
  if strSessionDirName ∈ fs.dirs then
    let target := strSessionDirName ++ "/" ++ qBaseName strSessionDirName ++ ".rpp"
    if fs.hasFile target then
      Except.error (target ++ " exists and will not be overwritten.  Aborting.")
    else
      Except.ok ⟨fs.files ++ [(target, rppContent)], fs.dirs⟩
  else
    Except.error (strSessionDirName ++ " does not exist or is not a directory.  Aborting.")

/-! ### Concrete scenario: the spec's end-to-end session
(one client "Alice" on channel 0, stereo, three frames of 128 samples,
then a disconnect) -/

def aliceAddr : CHostAddress := ⟨1, 22124⟩

def demoAfterFrames : CJamSession :=
  ((initSession.frame 0 "Alice" aliceAddr 2 128).frame 0 "Alice" aliceAddr 2
    128).frame 0 "Alice" aliceAddr 2 128

/-- The finalized demo session (the disconnect is known to succeed; the
fallback branch is never taken). -/
def demoSession : CJamSession :=
  match demoAfterFrames.disconnectClient 0 with
  | some s => s
  | none => demoAfterFrames

/-- Modelled from the spec: the frame-length formula the specification
claims for the offline reconstruction —
`fileByteSize / (channelCount * frameSizeSamples * sampleWidth)` with
`sampleWidth = 2` bytes for 16-bit samples.  Stated only to compare the
spec's formula with the code's computation. -/
def specFrameLength (fileByteSize channelCount frameSizeSamples : Nat) : Nat :=
  fileByteSize / (channelCount * frameSizeSamples * 2)

/-! ### Lemmas: decimal rendering -/

theorem decChars_lt {n : Nat} (h : n < 10) : decChars n = [Nat.digitChar n] := by
  rw [decChars]
  exact dif_pos h

theorem decChars_ge {n : Nat} (h : ¬ n < 10) :
    decChars n = decChars (n / 10) ++ [Nat.digitChar (n % 10)] := by
  rw [decChars]
  exact dif_neg h

theorem toDigitsCore_eq_decChars (fuel : Nat) :
    ∀ (n : Nat) (acc : List Char), n < fuel →
      Nat.toDigitsCore 10 fuel n acc = decChars n ++ acc := by
  induction fuel with
  | zero => intro n acc h; omega
  | succ f ih =>
    intro n acc h
    rw [Nat.toDigitsCore]
    by_cases h10 : n / 10 = 0
    · have hn : n < 10 := by
        have := (Nat.div_eq_zero_iff (by omega : 0 < 10)).mp h10
        omega
      rw [if_pos h10, decChars_lt hn, Nat.mod_eq_of_lt hn]
      rfl
    · have hn : ¬ n < 10 := by
        intro hlt
        exact h10 (Nat.div_eq_of_lt hlt)
      have hdiv : n / 10 < f := by
        have h1 : n / 10 < n := Nat.div_lt_self (by omega) (by omega)
        omega
      rw [if_neg h10, ih (n / 10) _ hdiv, decChars_ge hn, List.append_assoc]
      rfl

theorem repr_eq_decChars (n : Nat) : Nat.repr n = (decChars n).asString := by
  show (Nat.toDigits 10 n).asString = _
  rw [Nat.toDigits, toDigitsCore_eq_decChars (n + 1) n [] (Nat.lt_succ_self n),
    List.append_nil]

theorem decChars_ne_nil (n : Nat) : decChars n ≠ [] := by
  rw [decChars]
  split
  · simp
  · simp

theorem digitChar_inj_fin : ∀ a b : Fin 10, Nat.digitChar a = Nat.digitChar b → a = b := by
  decide

theorem digitChar_inj {a b : Nat} (ha : a < 10) (hb : b < 10)
    (h : Nat.digitChar a = Nat.digitChar b) : a = b := by
  have := digitChar_inj_fin ⟨a, ha⟩ ⟨b, hb⟩ h
  exact congrArg Fin.val this

theorem decChars_inj (a : Nat) : ∀ b, decChars a = decChars b → a = b := by
  induction a using Nat.strong_induction_on with
  | _ a ih =>
    intro b h
    by_cases ha : a < 10 <;> by_cases hb : b < 10
    · rw [decChars_lt ha, decChars_lt hb] at h
      simp only [List.cons.injEq, and_true] at h
      exact digitChar_inj ha hb h
    · rw [decChars_lt ha, decChars_ge hb] at h
      have hlen := congrArg List.length h
      have hpos : 0 < (decChars (b / 10)).length :=
        List.length_pos.mpr (decChars_ne_nil _)
      simp only [List.length_append, List.length_cons, List.length_nil] at hlen
      omega
    · rw [decChars_ge ha, decChars_lt hb] at h
      have hlen := congrArg List.length h
      have hpos : 0 < (decChars (a / 10)).length :=
        List.length_pos.mpr (decChars_ne_nil _)
      simp only [List.length_append, List.length_cons, List.length_nil] at hlen
      omega
    · rw [decChars_ge ha, decChars_ge hb] at h
      obtain ⟨h1, h2⟩ := List.append_inj' h rfl
      have hdiv : a / 10 = b / 10 :=
        ih (a / 10) (Nat.div_lt_self (by omega) (by omega)) (b / 10) h1
      have hmod : a % 10 = b % 10 := by
        have hc : Nat.digitChar (a % 10) = Nat.digitChar (b % 10) := by
          simpa using h2
        exact digitChar_inj (Nat.mod_lt _ (by omega)) (Nat.mod_lt _ (by omega)) hc
      omega

theorem string_data_inj {s t : String} (h : s.data = t.data) : s = t := by
  cases s; cases t; cases h; rfl

theorem data_append (s t : String) : (s ++ t).data = s.data ++ t.data := by
  cases s; cases t; rfl

theorem repr_data_inj {a b : Nat} (h : (Nat.repr a).data = (Nat.repr b).data) :
    a = b := by
  rw [repr_eq_decChars, repr_eq_decChars] at h
  exact decChars_inj a b h

theorem affixOf_inj {j k : Nat} (h : affixOf j = affixOf k) : j = k := by
  have hd := congrArg String.data h
  unfold affixOf at hd
  by_cases hj : j = 0 <;> by_cases hk : k = 0
  · omega
  · rw [if_pos hj, if_neg hk, data_append] at hd
    simp at hd
  · rw [if_neg hj, if_pos hk, data_append] at hd
    simp at hd
  · rw [if_neg hj, if_neg hk, data_append, data_append] at hd
    simp only [show ("_" : String).data = ['_'] from rfl, List.cons_append,
      List.nil_append, List.cons.injEq, true_and] at hd
    exact repr_data_inj hd

theorem candFileName_inj (base : String) {j k : Nat}
    (h : candFileName base j = candFileName base k) : j = k := by
  have hd := congrArg String.data h
  unfold candFileName at hd
  rw [data_append, data_append, data_append, data_append] at hd
  have h1 := List.append_cancel_right hd
  have h2 := List.append_cancel_left h1
  exact affixOf_inj (string_data_inj h2)

theorem exists_free_cand (files : List String) (base : String) :
    ∃ k, k ≤ files.length ∧ candFileName base k ∉ files := by
  by_contra hc
  push_neg at hc
  have hsub : (Finset.range (files.length + 1)).image (candFileName base)
      ⊆ files.toFinset := by
    intro x hx
    rw [Finset.mem_image] at hx
    obtain ⟨k, hk, rfl⟩ := hx
    rw [List.mem_toFinset]
    exact hc k (by simpa using Nat.lt_succ_iff.mp (Finset.mem_range.mp hk))
  have hcard : ((Finset.range (files.length + 1)).image (candFileName base)).card
      = files.length + 1 := by
    rw [Finset.card_image_of_injective _ (fun a b hab => candFileName_inj base hab)]
    simp
  have hle := Finset.card_le_card hsub
  have hfin := files.toFinset_card_le
  omega

theorem findAffix_spec (files : List String) (base : String) :
    ∀ fuel k, (∃ j, k ≤ j ∧ j < k + fuel ∧ candFileName base j ∉ files) →
      candFileName base (findAffix files base fuel k) ∉ files ∧
      k ≤ findAffix files base fuel k ∧
      (∀ m, k ≤ m → m < findAffix files base fuel k → candFileName base m ∈ files) := by
  intro fuel
  induction fuel with
  | zero =>
    intro k h
    obtain ⟨j, h1, h2, _⟩ := h
    omega
  | succ fuel ih =>
    intro k h
    by_cases hmem : candFileName base k ∈ files
    · rw [show findAffix files base (fuel + 1) k
          = findAffix files base fuel (k + 1) by rw [findAffix, if_pos hmem]]
      obtain ⟨j, hj1, hj2, hj3⟩ := h
      have hjk : j ≠ k := by
        intro hEq
        exact hj3 (hEq ▸ hmem)
      obtain ⟨hfree, hge, hmin⟩ := ih (k + 1) ⟨j, by omega, by omega, hj3⟩
      refine ⟨hfree, by omega, ?_⟩
      intro m hm1 hm2
      by_cases hmk : m = k
      · exact hmk ▸ hmem
      · exact hmin m (by omega) hm2
    · rw [show findAffix files base (fuel + 1) k = k by rw [findAffix, if_neg hmem]]
      exact ⟨hmem, Nat.le_refl k, fun m h1 h2 => absurd (Nat.lt_of_le_of_lt h1 h2)
        (Nat.lt_irrefl k)⟩

theorem uniqueFileName_not_mem (files : List String) (base : String) :
    uniqueFileName files base ∉ files := by
  obtain ⟨j, hj1, hj2⟩ := exists_free_cand files base
  exact (findAffix_spec files base (files.length + 1) 0 ⟨j, by omega, by omega, hj2⟩).1

theorem uniqueFileName_second (files : List String) (base : String)
    (h0 : candFileName base 0 ∈ files) (h1 : candFileName base 1 ∉ files) :
    uniqueFileName files base = candFileName base 1 := by
  have hlen : 1 ≤ files.length := by
    cases files with
    | nil => simp at h0
    | cons a t => simp
  obtain ⟨hfree, -, hmin⟩ :=
    findAffix_spec files base (files.length + 1) 0 ⟨1, by omega, by omega, h1⟩
  set r := findAffix files base (files.length + 1) 0 with hr
  have hr0 : r ≠ 0 := by
    intro hEq
    rw [hEq] at hfree
    exact hfree h0
  have hrle : r ≤ 1 := by
    by_contra hgt
    exact h1 (hmin 1 (by omega) (by omega))
  unfold uniqueFileName
  rw [← hr, show r = 1 by omega]

/-! ### List slot helpers -/

theorem getD_set_self {α : Type} (l : List (Option α)) (i : Nat) (v : Option α)
    (h : i < l.length) : (l.set i v).getD i none = v := by
  induction l generalizing i with
  | nil => simp at h
  | cons a t ih =>
    cases i with
    | zero => rfl
    | succ n => exact ih n (by simpa using h)

theorem getD_set_ne {α : Type} (l : List (Option α)) (i j : Nat) (v : Option α)
    (h : i ≠ j) : (l.set i v).getD j none = l.getD j none := by
  induction l generalizing i j with
  | nil => rfl
  | cons a t ih =>
    cases i with
    | zero =>
      cases j with
      | zero => omega
      | succ m => rfl
    | succ n =>
      cases j with
      | zero => rfl
      | succ m => exact ih n m (by omega)

/-! ### Frame unfolding helpers -/

theorem frame_marker_drop (s : CJamSession) (c : Nat) (n : String)
    (a : CHostAddress) (ch fss : Nat) (hm : (c : Int) = s.chIdDisconnected) :
    s.frame c n a ch fss = { s with chIdDisconnected := -1 } := by
  unfold CJamSession.frame
  rw [if_pos hm]

theorem frame_drop_none (s : CJamSession) (c : Nat) (n : String)
    (a : CHostAddress) (ch fss : Nat) (hm : ¬ (c : Int) = s.chIdDisconnected)
    (hs1 : (s.frameStage c n a ch).vecptrJamClients.getD c none = none) :
    s.frame c n a ch fss = s.frameStage c n a ch := by
  unfold CJamSession.frame
  rw [if_neg hm]
  simp only [hs1]

theorem frame_feed_eq (s : CJamSession) (c : Nat) (n : String)
    (a : CHostAddress) (ch fss : Nat) (c0 : CJamClient)
    (hm : ¬ (c : Int) = s.chIdDisconnected)
    (hs1 : (s.frameStage c n a ch).vecptrJamClients.getD c none = some c0) :
    s.frame c n a ch fss =
      (let s1 := s.frameStage c n a ch
       let c2 := c0.feed n
       let s2 := { s1 with
         vecptrJamClients := s1.vecptrJamClients.set c (some c2),
         sessionFiles := updateFileSize s1.sessionFiles c0.fileName
           (frameBytes c0.numChannels fss) }
       if c2.startFrame + c2.frameCount > s2.currentFrame then
         { s2 with currentFrame := s2.currentFrame + 1 }
       else s2) := by
  unfold CJamSession.frame
  rw [if_neg hm]
  simp only [hs1]

theorem frameStage_of_none (s : CJamSession) (c : Nat) (n : String)
    (a : CHostAddress) (ch : Nat)
    (hslot : s.vecptrJamClients.getD c none = none) :
    s.frameStage c n a ch = s.openClientAt c n a ch := by
  unfold CJamSession.frameStage
  simp only [hslot]

theorem frameStage_of_same (s : CJamSession) (c : Nat) (n : String)
    (a : CHostAddress) (ch : Nat) (r : CJamClient)
    (hslot : s.vecptrJamClients.getD c none = some r)
    (hno : ¬ (ch ≠ r.numChannels ∨ a.inetAddr ≠ r.address.inetAddr
      ∨ a.iPort ≠ r.address.iPort)) :
    s.frameStage c n a ch = s := by
  unfold CJamSession.frameStage
  simp only [hslot]
  rw [if_neg hno]

theorem frameStage_of_change_zero (s : CJamSession) (c : Nat) (n : String)
    (a : CHostAddress) (r : CJamClient)
    (hslot : s.vecptrJamClients.getD c none = some r)
    (hch : (0 : Nat) ≠ r.numChannels ∨ a.inetAddr ≠ r.address.inetAddr
      ∨ a.iPort ≠ r.address.iPort) :
    s.frameStage c n a 0 =
      { s.disconnectWith c r with
        vecptrJamClients := (s.disconnectWith c r).vecptrJamClients.set c none } := by
  unfold CJamSession.frameStage
  simp only [hslot]
  rw [if_pos hch]
  simp

theorem frameStage_of_change_nonzero (s : CJamSession) (c : Nat) (n : String)
    (a : CHostAddress) (ch : Nat) (r : CJamClient)
    (hslot : s.vecptrJamClients.getD c none = some r)
    (hch : ch ≠ r.numChannels ∨ a.inetAddr ≠ r.address.inetAddr
      ∨ a.iPort ≠ r.address.iPort)
    (hnz : ch ≠ 0) :
    s.frameStage c n a ch = (s.disconnectWith c r).openClientAt c n a ch := by
  unfold CJamSession.frameStage
  simp only [hslot]
  rw [if_pos hch, if_neg hnz]

theorem frameStage_currentFrame (s : CJamSession) (c : Nat) (n : String)
    (a : CHostAddress) (ch : Nat) :
    (s.frameStage c n a ch).currentFrame = s.currentFrame := by
  unfold CJamSession.frameStage
  split
  · rfl
  · split
    · split <;> rfl
    · rfl

theorem frameStage_length (s : CJamSession) (c : Nat) (n : String)
    (a : CHostAddress) (ch : Nat) :
    (s.frameStage c n a ch).vecptrJamClients.length
      = s.vecptrJamClients.length := by
  unfold CJamSession.frameStage
  split
  · simp [CJamSession.openClientAt]
  · split
    · split <;> simp [CJamSession.disconnectWith, CJamSession.openClientAt]
    · rfl

theorem frame_slots_length (s : CJamSession) (c : Nat) (n : String)
    (a : CHostAddress) (ch fss : Nat) :
    (s.frame c n a ch fss).vecptrJamClients.length
      = s.vecptrJamClients.length := by
  by_cases hm : (c : Int) = s.chIdDisconnected
  · rw [frame_marker_drop s c n a ch fss hm]
  · rcases hs1 : (s.frameStage c n a ch).vecptrJamClients.getD c none with _ | c0
    · rw [frame_drop_none s c n a ch fss hm hs1]
      exact frameStage_length s c n a ch
    · rw [frame_feed_eq s c n a ch fss c0 hm hs1]
      dsimp only
      split <;> simp [frameStage_length s c n a ch]

/-- Opening a client on an empty (or just-vacated) slot and feeding it
its first frame: the slot afterwards holds a fresh recording started at
the current global counter with one recorded frame. -/
theorem frame_open_fresh (t : CJamSession) (c : Nat) (n : String)
    (a : CHostAddress) (ch fss : Nat)
    (hlen : c < t.vecptrJamClients.length)
    (hslot : t.vecptrJamClients.getD c none = none)
    (hm : ¬ (c : Int) = t.chIdDisconnected) :
    ∃ r2, (t.frame c n a ch fss).vecptrJamClients.getD c none = some r2 ∧
      r2.startFrame = t.currentFrame ∧ r2.numChannels = ch % 65536 ∧
      r2.frameCount = 1 ∧ r2.name = n := by
  have hstage := frameStage_of_none t c n a ch hslot
  have hopen : (t.frameStage c n a ch).vecptrJamClients.getD c none
      = some (mkJamClient t.currentFrame ch n a
        (t.sessionFiles.map (fun e => e.1))).1 := by
    rw [hstage]
    unfold CJamSession.openClientAt
    exact getD_set_self _ c _ hlen
  rw [frame_feed_eq t c n a ch fss _ hm hopen]
  refine ⟨(mkJamClient t.currentFrame ch n a
    (t.sessionFiles.map (fun e => e.1))).1.feed n, ?_, rfl, rfl, rfl, rfl⟩
  dsimp only
  split <;>
    simpa [hstage] using
      getD_set_self ((t.frameStage c n a ch).vecptrJamClients) c
        (some ((mkJamClient t.currentFrame ch n a
          (t.sessionFiles.map (fun e => e.1))).1.feed n))
        (by rw [frameStage_length]; exact hlen)

/-! ### Claim theorems -/

set_option maxRecDepth 40000

/-- **C1.**  The live path and the offline reconstruction are NOT
structurally equivalent over the files a finalized session wrote: the
spec's end-to-end session (client "Alice", channel 0, stereo, three
128-sample frames, then disconnect) writes the single file
`Alice-0-2.wav`, and `Tracks()` yields the one-track map, but
`TracksFromSessionDir` filters the directory with the `"*.pcm"` glob
(and expects a `name-hostPort-startFrame-channels` name layout), so over
the same directory it returns the empty map. -/
theorem c1_live_offline_divergence :
    demoSession.sessionFiles = [("Alice-0-2.wav", 1536)] ∧
    demoSession.tracks = [("Alice", [⟨2, 0, 3, "Alice-0-2.wav"⟩])] ∧
    CJamSession.tracksFromSessionDir demoSession.sessionFiles 128 = [] ∧
    demoSession.tracks ≠ CJamSession.tracksFromSessionDir demoSession.sessionFiles 128 := by
  refine ⟨rfl, rfl, rfl, ?_⟩
  intro h
  rw [show CJamSession.tracksFromSessionDir demoSession.sessionFiles 128
    = ([] : TrackMap) from rfl] at h
  simp [show demoSession.tracks = [("Alice", [⟨2, 0, 3, "Alice-0-2.wav"⟩])] from rfl] at h

/-- **C2.**  `CJamSession::DisconnectClient` on a channel whose slot is
empty is not a warned no-op: it dereferences the null slot pointer
(jamrecorder.cpp:143), modelled as the faulting result `none` — both on
a fresh session and on a slot just vacated by a disconnect. -/
theorem c2_disconnect_empty_slot_faults :
    initSession.disconnectClient 0 = none ∧
    demoSession.disconnectClient 0 = none :=
  ⟨rfl, rfl⟩

/-- **C7.**  The offline length derivation divides only by the channel
count and the frame size, not by the 2-byte sample width: a `.pcm` entry
of 1536 bytes with 2 channels and 128 samples per frame — exactly the
byte volume the live writer produces for 3 frames — is reconstructed
with frame length 6, while the spec's formula
`size / (channels * frameSize * sampleWidth)` gives 3. -/
theorem c7_offline_length_formula :
    CJamSession.tracksFromSessionDir [("Alice-localhost_22124-0-2.pcm", 1536)] 128
      = [("Alice-localhost_22124", [⟨2, 0, 6, "Alice-localhost_22124-0-2.pcm"⟩])] ∧
    frameBytes 2 128 * 3 = 1536 ∧
    specFrameLength 1536 2 128 = 3 :=
  ⟨rfl, rfl, rfl⟩

/-- **C8.**  The constructor's collision loop never overwrites: the
chosen name is not among the existing files, appending it preserves
name uniqueness in the directory, a second client whose base name
collides with an existing file gets the `_1` suffix, and the name a
constructed `CJamClient` records is fresh. -/
theorem c8_unique_filenames (files : List String) (base : String) :
    uniqueFileName files base ∉ files ∧
    (files.Nodup → (files ++ [uniqueFileName files base]).Nodup) ∧
    (candFileName base 0 ∈ files → candFileName base 1 ∉ files →
      uniqueFileName files base = candFileName base 1) ∧
    (∀ (frame numChannels : Nat) (name : String) (address : CHostAddress),
      base = clientNameOf name ++ "-" ++ Nat.repr frame ++ "-" ++ Nat.repr numChannels →
      (mkJamClient frame numChannels name address files).1.fileName ∉ files) := by
  refine ⟨uniqueFileName_not_mem files base, ?_, uniqueFileName_second files base, ?_⟩
  · intro hnd
    rw [List.nodup_append]
    refine ⟨hnd, List.nodup_singleton _, ?_⟩
    intro x hx hmem
    rw [List.mem_singleton] at hmem
    exact uniqueFileName_not_mem files base (hmem ▸ hx)
  · intro frame numChannels name address hbase
    show uniqueFileName files _ ∉ files
    rw [← hbase]
    exact uniqueFileName_not_mem files base

/-- Witness for C8 at the concrete collision of the claim: the directory
already holds `Alice-0-2.wav`; the second identical client's name is the
`_1` variant and is fresh. -/
theorem c8_witness :
    uniqueFileName ["Alice-0-2.wav"] "Alice-0-2" ∉ ["Alice-0-2.wav"] ∧
    uniqueFileName ["Alice-0-2.wav"] "Alice-0-2" = candFileName ("Alice-0-2") 1 ∧
    (mkJamClient 0 2 "Alice" aliceAddr ["Alice-0-2.wav"]).1.fileName
      ∉ ["Alice-0-2.wav"] :=
  ⟨(c8_unique_filenames ["Alice-0-2.wav"] "Alice-0-2").1,
   (c8_unique_filenames ["Alice-0-2.wav"] "Alice-0-2").2.2.1 (by decide) (by decide),
   (c8_unique_filenames ["Alice-0-2.wav"] "Alice-0-2").2.2.2 0 2 "Alice" aliceAddr rfl⟩

/-- **C3.**  After `DisconnectClient(c)` succeeds, the next `Frame` for
`c` is dropped wholesale — finalized connections, every slot, the
directory and the counter are unchanged, and the one-shot marker is
cleared — and a second `Frame` for `c` then opens a brand-new recording
in slot `c` (started at the current counter, fed once). -/
theorem c3_stale_frame_suppression
    (s : CJamSession) (c : Nat) (r : CJamClient)
    (hlen : c < s.vecptrJamClients.length)
    (hr : s.vecptrJamClients.getD c none = some r)
    (s1 : CJamSession) (hd : s.disconnectClient c = some s1)
    (n1 n2 : String) (a1 a2 : CHostAddress) (ch1 ch2 fss1 fss2 : Nat) :
    (s1.frame c n1 a1 ch1 fss1).jamClientConnections = s1.jamClientConnections ∧
    (s1.frame c n1 a1 ch1 fss1).vecptrJamClients = s1.vecptrJamClients ∧
    (s1.frame c n1 a1 ch1 fss1).sessionFiles = s1.sessionFiles ∧
    (s1.frame c n1 a1 ch1 fss1).currentFrame = s1.currentFrame ∧
    (s1.frame c n1 a1 ch1 fss1).chIdDisconnected = -1 ∧
    ∃ r2, ((s1.frame c n1 a1 ch1 fss1).frame c n2 a2 ch2 fss2).vecptrJamClients.getD
        c none = some r2 ∧
      r2.startFrame = (s1.frame c n1 a1 ch1 fss1).currentFrame ∧
      r2.frameCount = 1 ∧ r2.name = n2 := by
  have hs1 : s1 = s.disconnectWith c r := by
    unfold CJamSession.disconnectClient at hd
    simp only [hr, Option.some.injEq] at hd
    exact hd.symm
  subst hs1
  have hmark : (c : Int) = (s.disconnectWith c r).chIdDisconnected := rfl
  rw [frame_marker_drop (s.disconnectWith c r) c n1 a1 ch1 fss1 hmark]
  refine ⟨rfl, rfl, rfl, rfl, rfl, ?_⟩
  obtain ⟨r2, hget, hstart, hnum, hcount, hname⟩ :=
    frame_open_fresh { s.disconnectWith c r with chIdDisconnected := -1 } c n2 a2
      ch2 fss2
      (by simpa [CJamSession.disconnectWith] using hlen)
      (by simpa [CJamSession.disconnectWith] using
        getD_set_self s.vecptrJamClients c none hlen)
      (show ¬ (c : Int) = -1 by omega)
  exact ⟨r2, hget, hstart, hcount, hname⟩

/-- Witness for C3: the demo session (Alice active on channel 0 with 3
frames) is disconnected; the stale frame is dropped, and a second frame
(now named "Bob") opens a fresh one-frame recording at the current
counter. -/
theorem c3_witness :
    (demoSession.frame 0 "Alice" aliceAddr 2 128).jamClientConnections
      = demoSession.jamClientConnections ∧
    (demoSession.frame 0 "Alice" aliceAddr 2 128).vecptrJamClients
      = demoSession.vecptrJamClients ∧
    (demoSession.frame 0 "Alice" aliceAddr 2 128).sessionFiles
      = demoSession.sessionFiles ∧
    (demoSession.frame 0 "Alice" aliceAddr 2 128).currentFrame
      = demoSession.currentFrame ∧
    (demoSession.frame 0 "Alice" aliceAddr 2 128).chIdDisconnected = -1 ∧
    ∃ r2, (((demoSession.frame 0 "Alice" aliceAddr 2 128).frame 0 "Bob" aliceAddr 2
        128).vecptrJamClients.getD 0 none = some r2) ∧
      r2.startFrame = (demoSession.frame 0 "Alice" aliceAddr 2 128).currentFrame ∧
      r2.frameCount = 1 ∧ r2.name = "Bob" :=
  c3_stale_frame_suppression demoAfterFrames 0
    ⟨0, 2, "Alice", aliceAddr, 3, "Alice-0-2.wav"⟩ (by decide) (by decide)
    demoSession rfl ("Alice") ("Bob") aliceAddr aliceAddr 2 2 128 128

/-- **C4.**  A channel-count change 2 → 0 finalizes the old recording
(appending its snapshot) and leaves the slot empty without opening a new
recording or touching the counter (and arms the one-shot marker); and on
any state with that slot empty and the marker clear for it, a frame with
channel count 2 opens a new recording whose start frame is the
then-current global counter. -/
theorem c4_channel_change_two_zero
    (s : CJamSession) (c : Nat) (r : CJamClient) (n : String) (a : CHostAddress)
    (fss : Nat)
    (hlen : c < s.vecptrJamClients.length)
    (hm : ¬ (c : Int) = s.chIdDisconnected)
    (hr : s.vecptrJamClients.getD c none = some r)
    (h2 : r.numChannels = 2) :
    ((s.frame c n a 0 fss).vecptrJamClients.getD c none = none ∧
     (s.frame c n a 0 fss).jamClientConnections
       = s.jamClientConnections ++ [finalizeClient r] ∧
     (s.frame c n a 0 fss).currentFrame = s.currentFrame ∧
     (s.frame c n a 0 fss).chIdDisconnected = (c : Int)) ∧
    ∀ (t : CJamSession) (n2 : String) (a2 : CHostAddress) (fss2 : Nat),
      c < t.vecptrJamClients.length →
      t.vecptrJamClients.getD c none = none →
      ¬ (c : Int) = t.chIdDisconnected →
      ∃ r2, (t.frame c n2 a2 2 fss2).vecptrJamClients.getD c none = some r2 ∧
        r2.startFrame = t.currentFrame ∧ r2.numChannels = 2 ∧
        r2.frameCount = 1 := by
  have hch : (0 : Nat) ≠ r.numChannels ∨ a.inetAddr ≠ r.address.inetAddr
      ∨ a.iPort ≠ r.address.iPort := Or.inl (by omega)
  have hstage := frameStage_of_change_zero s c n a r hr hch
  have hs1 : (s.frameStage c n a 0).vecptrJamClients.getD c none = none := by
    rw [hstage]
    exact getD_set_self _ c none (by simp [CJamSession.disconnectWith, hlen])
  rw [frame_drop_none s c n a 0 fss hm hs1]
  refine ⟨⟨hs1, by rw [hstage]; rfl, by rw [hstage]; rfl, by rw [hstage]; rfl⟩, ?_⟩
  intro t n2 a2 fss2 hlen2 hslot2 hm2
  obtain ⟨r2, hget, hstart, hnum, hcount, -⟩ :=
    frame_open_fresh t c n2 a2 2 fss2 hlen2 hslot2 hm2
  exact ⟨r2, hget, hstart, by rw [hnum], hcount⟩

/-- Witness for C4: Alice's active stereo recording on channel 0 of the
demo state receives a zero-channel frame, which finalizes it and empties
the slot; a later stereo frame on the finalized demo state's empty slot
(marker consumed, modelled by the cleared-marker state) opens a new
recording at the then-current counter. -/
theorem c4_witness :
    ((demoAfterFrames.frame 0 "Alice" aliceAddr 0 128).vecptrJamClients.getD 0 none
        = none ∧
     (demoAfterFrames.frame 0 "Alice" aliceAddr 0 128).jamClientConnections
       = demoAfterFrames.jamClientConnections
         ++ [finalizeClient ⟨0, 2, "Alice", aliceAddr, 3, "Alice-0-2.wav"⟩] ∧
     (demoAfterFrames.frame 0 "Alice" aliceAddr 0 128).currentFrame
       = demoAfterFrames.currentFrame ∧
     (demoAfterFrames.frame 0 "Alice" aliceAddr 0 128).chIdDisconnected
       = ((0 : Nat) : Int)) ∧
    ∀ (t : CJamSession) (n2 : String) (a2 : CHostAddress) (fss2 : Nat),
      0 < t.vecptrJamClients.length →
      t.vecptrJamClients.getD 0 none = none →
      ¬ ((0 : Nat) : Int) = t.chIdDisconnected →
      ∃ r2, (t.frame 0 n2 a2 2 fss2).vecptrJamClients.getD 0 none = some r2 ∧
        r2.startFrame = t.currentFrame ∧ r2.numChannels = 2 ∧
        r2.frameCount = 1 :=
  c4_channel_change_two_zero demoAfterFrames 0
    ⟨0, 2, "Alice", aliceAddr, 3, "Alice-0-2.wav"⟩ "Alice" aliceAddr 128
    (by decide) (by decide) (by decide) rfl

/-- **C5.**  An identity change with a non-zero new channel count opens
a fresh recording and feeds it that same frame (frame count 1, started
at the current counter), but leaves the one-shot marker armed for the
channel, so the immediately following frame for it is dropped wholesale:
the slot table (hence the new recording's frame count) and the finalized
list are untouched, only the marker is cleared. -/
theorem c5_marker_after_identity_change
    (s : CJamSession) (c : Nat) (r : CJamClient) (n : String) (a : CHostAddress)
    (ch fss : Nat)
    (hlen : c < s.vecptrJamClients.length)
    (hm : ¬ (c : Int) = s.chIdDisconnected)
    (hr : s.vecptrJamClients.getD c none = some r)
    (hchange : ch ≠ r.numChannels ∨ a.inetAddr ≠ r.address.inetAddr
      ∨ a.iPort ≠ r.address.iPort)
    (hnz : ch ≠ 0) :
    (∃ r1, (s.frame c n a ch fss).vecptrJamClients.getD c none = some r1 ∧
       r1.frameCount = 1 ∧ r1.startFrame = s.currentFrame) ∧
    (s.frame c n a ch fss).chIdDisconnected = (c : Int) ∧
    ∀ (n2 : String) (a2 : CHostAddress) (ch2 fss2 : Nat),
      ((s.frame c n a ch fss).frame c n2 a2 ch2 fss2).vecptrJamClients
        = (s.frame c n a ch fss).vecptrJamClients ∧
      ((s.frame c n a ch fss).frame c n2 a2 ch2 fss2).jamClientConnections
        = (s.frame c n a ch fss).jamClientConnections ∧
      ((s.frame c n a ch fss).frame c n2 a2 ch2 fss2).chIdDisconnected = -1 := by
  have hstage := frameStage_of_change_nonzero s c n a ch r hr hchange hnz
  have hopen : (s.frameStage c n a ch).vecptrJamClients.getD c none
      = some (mkJamClient (s.disconnectWith c r).currentFrame ch n a
        ((s.disconnectWith c r).sessionFiles.map (fun e => e.1))).1 := by
    rw [hstage]
    unfold CJamSession.openClientAt
    exact getD_set_self _ c _ (by simp [CJamSession.disconnectWith, hlen])
  have hfeq := frame_feed_eq s c n a ch fss _ hm hopen
  have hmark : (s.frame c n a ch fss).chIdDisconnected = (c : Int) := by
    rw [hfeq]
    dsimp only
    split
    · rw [hstage]
      rfl
    · rw [hstage]
      rfl
  have hslotR : (s.frame c n a ch fss).vecptrJamClients.getD c none
      = some ((mkJamClient (s.disconnectWith c r).currentFrame ch n a
        ((s.disconnectWith c r).sessionFiles.map (fun e => e.1))).1.feed n) := by
    rw [hfeq]
    dsimp only
    split <;>
      exact getD_set_self _ c _ (by rw [frameStage_length]; exact hlen)
  refine ⟨⟨_, hslotR, rfl, rfl⟩, hmark, ?_⟩
  intro n2 a2 ch2 fss2
  rw [frame_marker_drop (s.frame c n a ch fss) c n2 a2 ch2 fss2 hmark.symm]
  exact ⟨rfl, rfl, rfl⟩

/-- Witness for C5: Alice's stereo recording on channel 0 of the demo
state switches to mono (channel count 1): a fresh one-frame recording
opens, the marker stays armed, and the immediately following frame is
dropped. -/
theorem c5_witness :
    (∃ r1, (demoAfterFrames.frame 0 "Alice" aliceAddr 1 128).vecptrJamClients.getD
        0 none = some r1 ∧
       r1.frameCount = 1 ∧ r1.startFrame = demoAfterFrames.currentFrame) ∧
    (demoAfterFrames.frame 0 "Alice" aliceAddr 1 128).chIdDisconnected
      = ((0 : Nat) : Int) ∧
    ∀ (n2 : String) (a2 : CHostAddress) (ch2 fss2 : Nat),
      ((demoAfterFrames.frame 0 "Alice" aliceAddr 1 128).frame 0 n2 a2 ch2
          fss2).vecptrJamClients
        = (demoAfterFrames.frame 0 "Alice" aliceAddr 1 128).vecptrJamClients ∧
      ((demoAfterFrames.frame 0 "Alice" aliceAddr 1 128).frame 0 n2 a2 ch2
          fss2).jamClientConnections
        = (demoAfterFrames.frame 0 "Alice" aliceAddr 1 128).jamClientConnections ∧
      ((demoAfterFrames.frame 0 "Alice" aliceAddr 1 128).frame 0 n2 a2 ch2
          fss2).chIdDisconnected = -1 :=
  c5_marker_after_identity_change demoAfterFrames 0
    ⟨0, 2, "Alice", aliceAddr, 3, "Alice-0-2.wav"⟩ "Alice" aliceAddr 1 128
    (by decide) (by decide) (by decide) (Or.inl (by decide)) (by decide)

/-! ### Counter lemmas for C6 -/

theorem feed_mk_startFrame (f ch : Nat) (n n2 : String) (a : CHostAddress)
    (files : List String) :
    ((mkJamClient f ch n a files).1.feed n2).startFrame = f := rfl

theorem feed_mk_frameCount (f ch : Nat) (n n2 : String) (a : CHostAddress)
    (files : List String) :
    ((mkJamClient f ch n a files).1.feed n2).frameCount = 1 := rfl

theorem disconnectWith_currentFrame (s : CJamSession) (c : Nat) (r : CJamClient) :
    (s.disconnectWith c r).currentFrame = s.currentFrame := rfl

theorem frame_counter_cases (s : CJamSession) (c : Nat) (n : String)
    (a : CHostAddress) (ch fss : Nat) :
    (s.frame c n a ch fss).currentFrame = s.currentFrame ∨
    (s.frame c n a ch fss).currentFrame = s.currentFrame + 1 := by
  by_cases hm : (c : Int) = s.chIdDisconnected
  · left
    rw [frame_marker_drop s c n a ch fss hm]
  · rcases hs1 : (s.frameStage c n a ch).vecptrJamClients.getD c none with _ | c0
    · left
      rw [frame_drop_none s c n a ch fss hm hs1]
      exact frameStage_currentFrame s c n a ch
    · rw [frame_feed_eq s c n a ch fss c0 hm hs1]
      dsimp only
      split
      · right
        dsimp only
        rw [frameStage_currentFrame]
      · left
        dsimp only
        rw [frameStage_currentFrame]

theorem step_counter_mono (fss : Nat) (s : CJamSession) (e : SessionEvent)
    (s' : CJamSession) (h : stepEvent fss s e = some s') :
    s.currentFrame ≤ s'.currentFrame ∧
    s'.vecptrJamClients.length = s.vecptrJamClients.length := by
  cases e with
  | frameEv c n a ch =>
    simp only [stepEvent, Option.some.injEq] at h
    subst h
    constructor
    · rcases frame_counter_cases s c n a ch fss with h | h <;> omega
    · exact frame_slots_length s c n a ch fss
  | disconnectEv c =>
    simp only [stepEvent] at h
    unfold CJamSession.disconnectClient at h
    rcases hslot : s.vecptrJamClients.getD c none with _ | r
    · rw [hslot] at h
      simp at h
    · rw [hslot] at h
      simp only [Option.some.injEq] at h
      subst h
      exact ⟨le_refl _, by simp [CJamSession.disconnectWith]⟩

theorem runEvents_mono (fss : Nat) :
    ∀ (evs : List SessionEvent) (s s' : CJamSession),
      runEvents fss s evs = some s' → s.currentFrame ≤ s'.currentFrame := by
  intro evs
  induction evs with
  | nil =>
    intro s s' h
    simp only [runEvents, Option.some.injEq] at h
    subst h
    exact le_refl _
  | cons e es ih =>
    intro s s' h
    simp only [runEvents] at h
    rcases hstep : stepEvent fss s e with _ | s1
    · rw [hstep] at h
      simp at h
    · rw [hstep] at h
      exact le_trans (step_counter_mono fss s e s1 hstep).1 (ih s1 s' h)

theorem frame_exactness (s : CJamSession) (c : Nat) (n : String)
    (a : CHostAddress) (ch fss : Nat) (hlen : c < s.vecptrJamClients.length) :
    (s.frameFed c a ch = true →
      ∃ r, (s.frame c n a ch fss).vecptrJamClients.getD c none = some r ∧
        ((s.frame c n a ch fss).currentFrame = s.currentFrame + 1 ↔
          s.currentFrame < r.startFrame + r.frameCount)) ∧
    (s.frameFed c a ch = false →
      (s.frame c n a ch fss).currentFrame = s.currentFrame) := by
  by_cases hm : (c : Int) = s.chIdDisconnected
  · constructor
    · intro hfed
      unfold CJamSession.frameFed at hfed
      rw [if_pos hm] at hfed
      cases hfed
    · intro _
      rw [frame_marker_drop s c n a ch fss hm]
  · rcases hslot : s.vecptrJamClients.getD c none with _ | r0
    · -- empty slot: a fresh client is opened and fed; the counter test
      -- `startFrame + 1 > currentFrame` always passes
      have hfed : s.frameFed c a ch = true := by
        unfold CJamSession.frameFed
        rw [if_neg hm]
        simp only [hslot]
      constructor
      · intro _
        obtain ⟨r2, hget, hstart, -, hcount, -⟩ :=
          frame_open_fresh s c n a ch fss hlen hslot hm
        refine ⟨r2, hget, ?_⟩
        have hcf : (s.frame c n a ch fss).currentFrame = s.currentFrame + 1 := by
          have hstage := frameStage_of_none s c n a ch hslot
          have hopen : (s.frameStage c n a ch).vecptrJamClients.getD c none
              = some (mkJamClient s.currentFrame ch n a
                (s.sessionFiles.map (fun e => e.1))).1 := by
            rw [hstage]
            unfold CJamSession.openClientAt
            exact getD_set_self _ c _ hlen
          rw [frame_feed_eq s c n a ch fss _ hm hopen]
          dsimp only
          rw [if_pos (by rw [feed_mk_startFrame, feed_mk_frameCount,
            frameStage_currentFrame]; omega)]
          dsimp only
          rw [frameStage_currentFrame]
        rw [hcf, hstart, hcount]
        omega
      · intro hfed'
        rw [hfed] at hfed'
        cases hfed'
    · by_cases hidc : ch ≠ r0.numChannels ∨ a.inetAddr ≠ r0.address.inetAddr
        ∨ a.iPort ≠ r0.address.iPort
      · by_cases hz : ch = 0
        · -- identity change to zero channels: the frame is dropped
          have hfed : s.frameFed c a ch = false := by
            unfold CJamSession.frameFed
            rw [if_neg hm]
            simp only [hslot]
            rw [if_pos hidc]
            simp [hz]
          constructor
          · intro hfed'
            rw [hfed] at hfed'
            cases hfed'
          · intro _
            subst hz
            have hstage := frameStage_of_change_zero s c n a r0 hslot hidc
            have hs1 : (s.frameStage c n a 0).vecptrJamClients.getD c none = none := by
              rw [hstage]
              exact getD_set_self _ c none (by simp [CJamSession.disconnectWith, hlen])
            rw [frame_drop_none s c n a 0 fss hm hs1, hstage]
            rfl
        · -- identity change to a nonzero count: fresh client, counter advances
          have hfed : s.frameFed c a ch = true := by
            unfold CJamSession.frameFed
            rw [if_neg hm]
            simp only [hslot]
            rw [if_pos hidc]
            simp [hz]
          constructor
          · intro _
            have hstage := frameStage_of_change_nonzero s c n a ch r0 hslot hidc hz
            have hopen : (s.frameStage c n a ch).vecptrJamClients.getD c none
                = some (mkJamClient (s.disconnectWith c r0).currentFrame ch n a
                  ((s.disconnectWith c r0).sessionFiles.map (fun e => e.1))).1 := by
              rw [hstage]
              unfold CJamSession.openClientAt
              exact getD_set_self _ c _ (by simp [CJamSession.disconnectWith, hlen])
            refine ⟨(mkJamClient (s.disconnectWith c r0).currentFrame ch n a
              ((s.disconnectWith c r0).sessionFiles.map (fun e => e.1))).1.feed n, ?_, ?_⟩
            · rw [frame_feed_eq s c n a ch fss _ hm hopen]
              dsimp only
              split <;>
                exact getD_set_self _ c _ (by rw [frameStage_length]; exact hlen)
            · have hcf : (s.frame c n a ch fss).currentFrame = s.currentFrame + 1 := by
                rw [frame_feed_eq s c n a ch fss _ hm hopen]
                dsimp only
                rw [if_pos (by rw [feed_mk_startFrame, feed_mk_frameCount,
                  disconnectWith_currentFrame, frameStage_currentFrame]; omega)]
                dsimp only
                rw [frameStage_currentFrame]
              rw [hcf]
              simp [CJamClient.feed, mkJamClient, CJamSession.disconnectWith]
          · intro hfed'
            rw [hfed] at hfed'
            cases hfed'
      · -- same identity: the active recording is fed
        have hfed : s.frameFed c a ch = true := by
          unfold CJamSession.frameFed
          rw [if_neg hm]
          simp only [hslot]
          rw [if_neg hidc]
        have hstage := frameStage_of_same s c n a ch r0 hslot hidc
        have hs1 : (s.frameStage c n a ch).vecptrJamClients.getD c none = some r0 := by
          rw [hstage]
          exact hslot
        constructor
        · intro _
          refine ⟨r0.feed n, ?_, ?_⟩
          · rw [frame_feed_eq s c n a ch fss r0 hm hs1]
            dsimp only
            split <;>
              exact getD_set_self _ c _ (by rw [frameStage_length]; exact hlen)
          · rw [frame_feed_eq s c n a ch fss r0 hm hs1]
            dsimp only
            constructor
            · intro hEq
              by_contra hnot
              rw [if_neg (by rw [hstage]; simpa [CJamClient.feed] using hnot)] at hEq
              dsimp only at hEq
              rw [hstage] at hEq
              omega
            · intro hlt
              rw [if_pos (by rw [hstage]; simpa [CJamClient.feed] using hlt)]
              dsimp only
              rw [hstage]
        · intro hfed'
          rw [hfed] at hfed'
          cases hfed'

/-- **C6.**  Over any event sequence with valid channel ids that the
session processes without faulting, the global frame counter never
decreases; a single `Frame` call changes it by at most one; and when the
frame is actually fed to a recording, the counter advances by exactly
one precisely when that recording's start frame plus (updated) frame
count exceeds the counter, while dropped frames leave it unchanged. -/
theorem c6_counter_monotone (fss : Nat) :
    (∀ (s s' : CJamSession) (evs : List SessionEvent),
      (∀ e ∈ evs, e.chId < s.vecptrJamClients.length) →
      runEvents fss s evs = some s' →
      s.currentFrame ≤ s'.currentFrame) ∧
    (∀ (s : CJamSession) (c : Nat) (n : String) (a : CHostAddress) (ch : Nat),
      (s.frame c n a ch fss).currentFrame = s.currentFrame ∨
      (s.frame c n a ch fss).currentFrame = s.currentFrame + 1) ∧
    (∀ (s : CJamSession) (c : Nat) (n : String) (a : CHostAddress) (ch : Nat),
      c < s.vecptrJamClients.length →
      (s.frameFed c a ch = true →
        ∃ r, (s.frame c n a ch fss).vecptrJamClients.getD c none = some r ∧
          ((s.frame c n a ch fss).currentFrame = s.currentFrame + 1 ↔
            s.currentFrame < r.startFrame + r.frameCount)) ∧
      (s.frameFed c a ch = false →
        (s.frame c n a ch fss).currentFrame = s.currentFrame)) :=
  ⟨fun s s' evs _ h => runEvents_mono fss evs s s' h,
   fun s c n a ch => frame_counter_cases s c n a ch fss,
   fun s c n a ch hlen => frame_exactness s c n a ch fss hlen⟩

/-- Witness for C6: the demo event sequence (three Alice frames, one
disconnect) runs from the fresh session to the finalized demo session
with a non-decreasing counter, and the first fed frame advances the
counter per the exactness condition. -/
theorem c6_witness :
    initSession.currentFrame ≤ demoSession.currentFrame ∧
    (∃ r, (initSession.frame 0 "Alice" aliceAddr 2 128).vecptrJamClients.getD 0 none
        = some r ∧
      ((initSession.frame 0 "Alice" aliceAddr 2 128).currentFrame
          = initSession.currentFrame + 1 ↔
        initSession.currentFrame < r.startFrame + r.frameCount)) :=
  ⟨(c6_counter_monotone 128).1 initSession demoSession
    [.frameEv 0 "Alice" aliceAddr 2, .frameEv 0 "Alice" aliceAddr 2,
     .frameEv 0 "Alice" aliceAddr 2, .disconnectEv 0]
    (by decide) rfl,
   ((c6_counter_monotone 128).2.2 initSession 0 "Alice" aliceAddr 2 (by decide)).1
     rfl⟩

/-! ### Export helper lemmas -/

theorem hasFile_true_of_read {fs : RecFileSystem} {n b : String}
    (h : fs.read n = some b) : fs.hasFile n = true := by
  unfold RecFileSystem.read at h
  unfold RecFileSystem.hasFile
  rcases hf : fs.files.find? (fun e => e.1 = n) with _ | e
  · rw [hf] at h
    simp at h
  · rw [List.any_eq_true]
    refine ⟨e, List.mem_of_find?_eq_some hf, ?_⟩
    have := List.find?_some hf
    simpa using this

theorem find?_none_of_read_none {fs : RecFileSystem} {n : String}
    (h : fs.read n = none) : fs.files.find? (fun e => e.1 = n) = none := by
  unfold RecFileSystem.read at h
  exact Option.map_eq_none.mp h

theorem read_some_find? {fs : RecFileSystem} {n b : String}
    (h : fs.read n = some b) :
    ∃ e, fs.files.find? (fun e => e.1 = n) = some e ∧ e.2 = b := by
  unfold RecFileSystem.read at h
  rcases hf : fs.files.find? (fun e => e.1 = n) with _ | e
  · rw [hf] at h
    simp at h
  · rw [hf] at h
    exact ⟨e, hf, by simpa using h⟩

theorem read_mk_append (l1 l2 : List (String × String)) (n : String) :
    RecFileSystem.read ⟨l1 ++ l2⟩ n =
      ((l1.find? (fun e => e.1 = n)).or (l2.find? (fun e => e.1 = n))).map
        (fun e => e.2) := by
  unfold RecFileSystem.read
  rw [List.find?_append]

theorem hasFile_mk_append (l1 l2 : List (String × String)) (n : String) :
    RecFileSystem.hasFile ⟨l1 ++ l2⟩ n =
      (l1.any (fun e => e.1 = n) || l2.any (fun e => e.1 = n)) := by
  unfold RecFileSystem.hasFile
  rw [List.any_append]

/-- **C9.**  If a live export target already exists, that export is
skipped with a warning — the file's bytes are untouched — while the
other format is still attempted: with the `.rpp` target present, `OnEnd`
leaves its bytes unchanged, warns, and still writes the `.lof` file when
its own target is absent; symmetrically for a pre-existing `.lof`. -/
theorem c9_export_skip_preserves (fs : RecFileSystem)
    (sessionName rppContent lofContent oldBytes : String) :
    (fs.read (sessionName ++ ".rpp") = some oldBytes →
      (onEndExports fs sessionName rppContent lofContent).1.read
          (sessionName ++ ".rpp") = some oldBytes ∧
      (onEndExports fs sessionName rppContent lofContent).2.1 = true ∧
      (fs.read (sessionName ++ ".lof") = none →
        (onEndExports fs sessionName rppContent lofContent).1.read
          (sessionName ++ ".lof") = some lofContent)) ∧
    (fs.read (sessionName ++ ".lof") = some oldBytes →
      (onEndExports fs sessionName rppContent lofContent).1.read
          (sessionName ++ ".lof") = some oldBytes ∧
      (onEndExports fs sessionName rppContent lofContent).2.2 = true ∧
      (fs.read (sessionName ++ ".rpp") = none →
        (onEndExports fs sessionName rppContent lofContent).1.read
          (sessionName ++ ".rpp") = some rppContent)) := by
  constructor
  · intro h
    have hhas : fs.hasFile (sessionName ++ ".rpp") = true := hasFile_true_of_read h
    unfold onEndExports reaperProjectFromCurrentSession audacityLofFromCurrentSession
    rw [if_pos hhas]
    dsimp only
    by_cases hlof : fs.hasFile (sessionName ++ ".lof") = true
    · rw [if_pos hlof]
      refine ⟨h, rfl, ?_⟩
      intro hnone
      have : fs.hasFile (sessionName ++ ".lof") = false := by
        unfold RecFileSystem.hasFile
        rw [List.any_eq_false]
        intro x hx hpx
        have := List.find?_eq_none.mp (find?_none_of_read_none hnone) x hx
        exact this hpx
      rw [this] at hlof
      cases hlof
    · rw [if_neg hlof]
      dsimp only
      obtain ⟨e, hfind, he⟩ := read_some_find? h
      refine ⟨?_, rfl, ?_⟩
      · rw [read_mk_append, hfind]
        simp [he]
      · intro hnone
        rw [read_mk_append, find?_none_of_read_none hnone]
        simp
  · intro h
    have hhas : fs.hasFile (sessionName ++ ".lof") = true := hasFile_true_of_read h
    unfold onEndExports reaperProjectFromCurrentSession audacityLofFromCurrentSession
    by_cases hrpp : fs.hasFile (sessionName ++ ".rpp") = true
    · rw [if_pos hrpp]
      dsimp only
      rw [if_pos hhas]
      refine ⟨h, rfl, ?_⟩
      intro hnone
      have hfalse : fs.hasFile (sessionName ++ ".rpp") = false := by
        unfold RecFileSystem.hasFile
        rw [List.any_eq_false]
        intro x hx hpx
        exact List.find?_eq_none.mp (find?_none_of_read_none hnone) x hx hpx
      rw [hfalse] at hrpp
      cases hrpp
    · rw [if_neg hrpp]
      dsimp only
      have hlof1 : RecFileSystem.hasFile
          ⟨fs.files ++ [(sessionName ++ ".rpp", rppContent)]⟩
          (sessionName ++ ".lof") = true := by
        rw [hasFile_mk_append]
        unfold RecFileSystem.hasFile at hhas
        rw [hhas]
        rfl
      rw [if_pos hlof1]
      obtain ⟨e, hfind, he⟩ := read_some_find? h
      refine ⟨?_, rfl, ?_⟩
      · rw [read_mk_append, hfind]
        simp [he]
      · intro hnone
        rw [read_mk_append, find?_none_of_read_none hnone]
        simp

/-- Witness for C9: a directory already holding `S.rpp` with bytes
`"OLD"`: the Reaper export is skipped with a warning, the bytes survive,
and the Audacity export is still written. -/
theorem c9_witness :
    (onEndExports ⟨[("S.rpp", "OLD")]⟩ "S" "RPPNEW" "LOFNEW").1.read "S.rpp"
      = some "OLD" ∧
    (onEndExports ⟨[("S.rpp", "OLD")]⟩ "S" "RPPNEW" "LOFNEW").2.1 = true ∧
    (onEndExports ⟨[("S.rpp", "OLD")]⟩ "S" "RPPNEW" "LOFNEW").1.read "S.lof"
      = some "LOFNEW" := by
  have h := (c9_export_skip_preserves ⟨[("S.rpp", "OLD")]⟩ "S" "RPPNEW" "LOFNEW"
    "OLD").1 (by decide)
  exact ⟨h.1, h.2.1, h.2.2 (by decide)⟩

/-- **C10.**  `SessionDirToReaper` raises a hard error and writes
nothing when the session directory is missing (or not a directory) or
when the target `<dir>/<base>.rpp` already exists; and it only succeeds
outside those cases, in which case it writes exactly the one project
file. -/
theorem c10_offline_reaper_errors (fs : OfflineFileSystem) (path content : String) :
    (path ∉ fs.dirs → ∃ msg, sessionDirToReaper fs path content = Except.error msg) ∧
    (fs.hasFile (path ++ "/" ++ qBaseName path ++ ".rpp") = true →
      ∃ msg, sessionDirToReaper fs path content = Except.error msg) ∧
    (∀ fs', sessionDirToReaper fs path content = Except.ok fs' →
      path ∈ fs.dirs ∧
      fs.hasFile (path ++ "/" ++ qBaseName path ++ ".rpp") = false ∧
      fs'.files = fs.files ++ [(path ++ "/" ++ qBaseName path ++ ".rpp", content)]) := by
  refine ⟨?_, ?_, ?_⟩
  · intro hnin
    unfold sessionDirToReaper
    rw [if_neg hnin]
    exact ⟨_, rfl⟩
  · intro hfile
    unfold sessionDirToReaper
    by_cases hdir : path ∈ fs.dirs
    · rw [if_pos hdir]
      dsimp only
      rw [if_pos hfile]
      exact ⟨_, rfl⟩
    · rw [if_neg hdir]
      exact ⟨_, rfl⟩
  · intro fs' h
    unfold sessionDirToReaper at h
    by_cases hdir : path ∈ fs.dirs
    · rw [if_pos hdir] at h
      dsimp only at h
      by_cases hfile : fs.hasFile (path ++ "/" ++ qBaseName path ++ ".rpp") = true
      · rw [if_pos hfile] at h
        cases h
      · rw [if_neg hfile] at h
        simp only [Except.ok.injEq] at h
        subst h
        exact ⟨hdir, by simpa using hfile, rfl⟩
    · rw [if_neg hdir] at h
      cases h

/-- Witness for C10: a missing directory errors; a pre-existing
`Jam/Jam.rpp` target errors. -/
theorem c10_witness :
    (∃ msg, sessionDirToReaper ⟨[], []⟩ "Jam" "X" = Except.error msg) ∧
    (∃ msg, sessionDirToReaper ⟨[("Jam/Jam.rpp", "Y")], ["Jam"]⟩ "Jam" "X"
      = Except.error msg) :=
  ⟨(c10_offline_reaper_errors ⟨[], []⟩ "Jam" "X").1 (by decide),
   (c10_offline_reaper_errors ⟨[("Jam/Jam.rpp", "Y")], ["Jam"]⟩ "Jam" "X").2.1
     (by decide)⟩
